import Mathlib

/-!
Shallow embedding of the registry authentication core of `bborbe/docker_utils`
(`registry.go`).  Strings are modelled as Lean `String` (lists of characters);
I/O results (file reads, HTTP responses, JSON decoding of input streams) are
passed in explicitly as `Except`/`Option` values.  In-place mutation of the
`Registry` aggregate is modelled by returning the updated record together with
an optional error, mirroring the Go methods that mutate their receiver and
return an `error`.
-/

/-- Go `unicode.IsSpace` restricted to the Latin-1 range (the characters the
Go implementation treats as space below U+0100): space, \t, \n, \v, \f, \r,
NEL (U+0085) and NBSP (U+00A0).  Used by `strings.TrimSpace`. -/
def goIsSpace (c : Char) : Bool :=
  c == ' ' || c == '\t' || c == '\n' || c == '\x0b' || c == '\x0c' ||
  c == '\r' || c == '\u0085' || c == '\u00A0'

/-- Go `strings.TrimSpace`: drop leading and trailing whitespace. -/
def goTrimSpace (s : String) : String :=
  ⟨(((s.data.dropWhile goIsSpace).reverse.dropWhile goIsSpace)).reverse⟩

abbrev RegistryUsername := String
abbrev RegistryToken := String
abbrev RegistryPassword := String
abbrev RegistryName := String

/-- `RegistryUsername.Validate` from registry.go. -/
def RegistryUsername.Validate (r : RegistryUsername) : Option String :=
  if r.length == 0 then some "username empty" else none

/-- `RegistryPassword.Validate` from registry.go. -/
def RegistryPassword.Validate (r : RegistryPassword) : Option String :=
  if r.length == 0 then some "password empty" else none

/-- `RegistryPasswordFromFile` from registry.go.  The result of
`ioutil.ReadFile` is passed in as an `Except` value (error message or file
content); the function returns the password together with an optional error,
matching the Go `(RegistryPassword, error)` pair. -/
def RegistryPasswordFromFile (readResult : Except String String) :
    RegistryPassword × Option String :=
  match readResult with
  | .error e => ("", some e)
  | .ok content => (goTrimSpace content, none)

/-- `RegistryName.IsDockerHub` from registry.go: exact comparison with the
hub sentinel. -/
def RegistryName.IsDockerHub (r : RegistryName) : Bool :=
  "docker.io" == r

/-- `RegistryName.Url` from registry.go. -/
def RegistryName.Url (r : RegistryName) : String :=
  if RegistryName.IsDockerHub r then "https://hub.docker.com"
  else "https://" ++ r

/-- `RegistryName.Validate` from registry.go. -/
def RegistryName.Validate (r : RegistryName) : Option String :=
  if r.length == 0 then some "registry empty" else none

/-- The `Registry` aggregate from registry.go. -/
structure Registry where
  Name : RegistryName
  Token : RegistryToken
  Username : RegistryUsername
  Password : RegistryPassword
deriving DecidableEq, Repr

/-- `Registry.Validate` from registry.go: name, then username, then
password. -/
def Registry.Validate (r : Registry) : Option String :=
  match RegistryName.Validate r.Name with
  | some e => some e
  | none =>
    match RegistryUsername.Validate r.Username with
    | some e => some e
    | none =>
      match RegistryPassword.Validate r.Password with
      | some e => some e
      | none => none

/-- Value of a character in the standard base64 alphabet
(`encoding/base64.StdEncoding`). -/
def b64CharVal (c : Char) : Option Nat :=
  let n := c.toNat
  if 65 ≤ n ∧ n ≤ 90 then some (n - 65)
  else if 97 ≤ n ∧ n ≤ 122 then some (n - 71)
  else if 48 ≤ n ∧ n ≤ 57 then some (n + 4)
  else if n = 43 then some 62
  else if n = 47 then some 63
  else none

/-- Standard-alphabet character for a 6-bit value. -/
def b64IdxChar (n : Nat) : Char :=
  if n < 26 then Char.ofNat ('A'.toNat + n)
  else if n < 52 then Char.ofNat ('a'.toNat + n - 26)
  else if n < 62 then Char.ofNat ('0'.toNat + n - 52)
  else if n == 62 then '+'
  else '/'

/-- Decode base64 quadruples (with `=` padding allowed only at the very end),
as `encoding/base64.StdEncoding.DecodeString` does.  Bytes are represented as
characters with code points below 256. -/
def b64DecodeGroups : List Char → Option (List Char)
  | [] => some []
  | c1 :: c2 :: c3 :: c4 :: rest =>
    match b64CharVal c1, b64CharVal c2 with
    | some v1, some v2 =>
      if c3 == '=' then
        if c4 == '=' && rest.isEmpty then
          some [Char.ofNat (v1 * 4 + v2 / 16)]
        else none
      else
        match b64CharVal c3 with
        | some v3 =>
          if c4 == '=' then
            if rest.isEmpty then
              some [Char.ofNat (v1 * 4 + v2 / 16),
                    Char.ofNat (v2 % 16 * 16 + v3 / 4)]
            else none
          else
            match b64CharVal c4 with
            | some v4 =>
              match b64DecodeGroups rest with
              | some tail =>
                some (Char.ofNat (v1 * 4 + v2 / 16) ::
                      Char.ofNat (v2 % 16 * 16 + v3 / 4) ::
                      Char.ofNat (v3 % 4 * 64 + v4) :: tail)
              | none => none
            | none => none
        | none => none
    | _, _ => none
  | _ => none

/-- `encoding/base64.StdEncoding.DecodeString`: newline characters are
ignored, everything else must be well-formed padded base64. -/
def b64Decode (s : String) : Option String :=
  match b64DecodeGroups (s.data.filter (fun c => c != '\r' && c != '\n')) with
  | some bytes => some ⟨bytes⟩
  | none => none

/-- Encode byte triples into base64 quadruples with `=` padding
(`encoding/base64.StdEncoding.EncodeToString`). -/
def b64EncodeGroups : List Char → List Char
  | [] => []
  | [b1] =>
    [b64IdxChar (b1.toNat / 4), b64IdxChar (b1.toNat % 4 * 16), '=', '=']
  | [b1, b2] =>
    [b64IdxChar (b1.toNat / 4), b64IdxChar (b1.toNat % 4 * 16 + b2.toNat / 16),
     b64IdxChar (b2.toNat % 16 * 4), '=']
  | b1 :: b2 :: b3 :: rest =>
    b64IdxChar (b1.toNat / 4) ::
    b64IdxChar (b1.toNat % 4 * 16 + b2.toNat / 16) ::
    b64IdxChar (b2.toNat % 16 * 4 + b3.toNat / 64) ::
    b64IdxChar (b3.toNat % 64) :: b64EncodeGroups rest

/-- `encoding/base64.StdEncoding.EncodeToString`. -/
def b64Encode (s : String) : String :=
  ⟨b64EncodeGroups s.data⟩

/-- `strings.SplitN(s, ":", 2)` on the character list of `s`: one part when
there is no colon, otherwise the prefix before the first colon and everything
after it. -/
def goSplitNColon2 (l : List Char) : List (List Char) :=
  if l.contains ':' then
    [l.takeWhile (fun c => c != ':'), (l.dropWhile (fun c => c != ':')).tail]
  else [l]

/-- `nameToDomain` from registry.go. -/
def nameToDomain (name : RegistryName) : String :=
  if RegistryName.IsDockerHub name then "https://index.docker.io/v1/"
  else name

/-- The distinct error values produced by `Registry.CredentialsFromDockerConfig`
(each `errors.New`/`errors.Errorf` call site). -/
inductive CredError where
  | decodeJsonFailed
  | domainNotFound (name : String)
  | base64DecodeFailed
  | splitAuthFailed
deriving DecidableEq, Repr

/-- Lines 121–126 of registry.go: split the decoded auth blob on the first
colon into exactly two parts. -/
def parseAuthBlob (value : String) : Except CredError (String × String) :=
  match goSplitNColon2 value.data with
  | [u, p] => .ok (⟨u⟩, ⟨p⟩)
  | _ => .error .splitAuthFailed

/-- `Registry.CredentialsFromDockerConfig` from registry.go.  The JSON
decoding of the input stream is modelled by its result: `none` when the
stream is not valid JSON of the expected shape, otherwise the `auths` object
as an association list from domain to the base64 `auth` field.  The Go method
mutates its receiver and returns an `error`; here it returns the (possibly
updated) registry together with an optional error. -/
def Registry.CredentialsFromDockerConfig (r : Registry)
    (input : Option (List (String × String))) : Registry × Option CredError :=
  match input with
  | none => (r, some .decodeJsonFailed)
  | some auths =>
    match auths.lookup (nameToDomain r.Name) with
    | none => (r, some (.domainNotFound r.Name))
    | some authField =>
      match b64Decode authField with
      | none => (r, some .base64DecodeFailed)
      | some value =>
        match parseAuthBlob value with
        | .error e => (r, some e)
        | .ok (u, p) => ({ r with Username := u, Password := p }, none)

/-- Model of a `net/http` request: method, URL, headers in insertion order,
and body. -/
structure HttpRequest where
  method : String
  url : String
  headers : List (String × String)
  body : String
deriving DecidableEq, Repr

/-- `req.Header.Add(key, value)`: appends a header. -/
def headerAdd (key value : String) (req : HttpRequest) : HttpRequest :=
  { req with headers := req.headers ++ [(key, value)] }

/-- `req.SetBasicAuth(username, password)`: sets the `Authorization` header
to the `Basic` scheme with the base64 of `username:password`, replacing any
previous `Authorization` header. -/
def setBasicAuth (username password : String) (req : HttpRequest) : HttpRequest :=
  { req with headers :=
      req.headers.filter (fun kv => kv.1 != "Authorization") ++
      [("Authorization", "Basic " ++ b64Encode (username ++ ":" ++ password))] }

/-- The body `GetToken` builds with
`fmt.Sprintf("{\"username\": \"%s\", \"password\": \"%s\"}", ...)` —
plain interpolation, no JSON escaping (`\x7b`/`\x7d` are the braces). -/
def loginBody (username password : String) : String :=
  "\x7b\"username\": \"" ++ username ++ "\", \"password\": \"" ++ password ++
  "\"\x7d"

/-- The request `Registry.GetToken` constructs (registry.go lines 150–156):
POST to `<url>/v2/users/login/` with a `Content-Type: application/json`
header and the interpolated body. -/
def Registry.loginRequest (r : Registry) : HttpRequest :=
  { method := "POST"
    url := RegistryName.Url r.Name ++ "/v2/users/login/"
    headers := [("Content-Type", "application/json")]
    body := loginBody r.Username r.Password }

/-- The distinct error values produced by `Registry.GetToken`. -/
inductive TokenError where
  | createRequestFailed
  | requestFailed
  | statusNot2xx (code : Nat)
  | decodeResponseFailed
deriving DecidableEq, Repr

/-- Response handling of `Registry.GetToken` (registry.go lines 162–172):
reject any status with `status/100 != 2`, then decode the body, whose JSON
decoding is modelled by its result (`none` when the body does not parse as a
token object). -/
def getTokenFromResponse (status : Nat) (body : Option RegistryToken) :
    Except TokenError RegistryToken :=
  if status / 100 != 2 then .error (.statusNot2xx status)
  else
    match body with
    | none => .error .decodeResponseFailed
    | some token => .ok token

/-- The error `Registry.SetAuth` returns when the token login fails. -/
inductive SetAuthError where
  | getTokenFailed (e : TokenError)
deriving DecidableEq, Repr

/-- `Registry.SetAuth` from registry.go.  The outcome of the `GetToken` call
(network plus response handling) is passed in as `tokenResult`; it is only
consulted on the hub branch, as in the source. -/
def Registry.SetAuth (r : Registry)
    (tokenResult : Except TokenError RegistryToken) (req : HttpRequest) :
    Except SetAuthError HttpRequest :=
  if RegistryName.IsDockerHub r.Name then
    match tokenResult with
    | .error e => .error (.getTokenFailed e)
    | .ok token => .ok (headerAdd "Authorization" ("JWT " ++ token) req)
  else if r.Username != "" && r.Password != "" then
    .ok (setBasicAuth r.Username r.Password req)
  else
    .ok req

/-- Value of a hexadecimal digit. -/
def hexVal (c : Char) : Option Nat :=
  let n := c.toNat
  if 48 ≤ n ∧ n ≤ 57 then some (n - 48)
  else if 97 ≤ n ∧ n ≤ 102 then some (n - 87)
  else if 65 ≤ n ∧ n ≤ 70 then some (n - 55)
  else none

/-- JSON single-character escapes. -/
def jsonEscChar : Char → Option Char
  | '"' => some '"'
  | '\\' => some '\\'
  | '/' => some '/'
  | 'b' => some '\x08'
  | 'f' => some '\x0c'
  | 'n' => some '\n'
  | 'r' => some '\r'
  | 't' => some '\t'
  | _ => none

/-- Parse the contents of a JSON string literal after its opening quote:
returns the decoded characters and the remainder after the closing quote,
or `none` when the input is not a valid JSON string. -/
def parseJsonStr : List Char → Option (List Char × List Char)
  | [] => none
  | '"' :: rest => some ([], rest)
  | '\\' :: 'u' :: h1 :: h2 :: h3 :: h4 :: rest =>
    match hexVal h1, hexVal h2, hexVal h3, hexVal h4 with
    | some a, some b, some c, some d =>
      match parseJsonStr rest with
      | some (s, r) => some (Char.ofNat (((a * 16 + b) * 16 + c) * 16 + d) :: s, r)
      | none => none
    | _, _, _, _ => none
  | '\\' :: e :: rest =>
    match jsonEscChar e with
    | some d =>
      match parseJsonStr rest with
      | some (s, r) => some (d :: s, r)
      | none => none
    | none => none
  | ['\\'] => none
  | c :: rest =>
    if c.toNat < 32 then none
    else
      match parseJsonStr rest with
      | some (s, r) => some (c :: s, r)
      | none => none

/-- Consume an expected literal from the front of the input. -/
def dropLit : List Char → List Char → Option (List Char)
  | [], rest => some rest
  | p :: ps, c :: cs => if c == p then dropLit ps cs else none
  | _ :: _, [] => none

/-- Parser for the exact JSON shape the login endpoint expects:
an object with string fields `username` and `password` (in the layout the
Sprintf call aims for), with full JSON string-escape handling.  Returns the
decoded field values, or `none` when the body is not such a JSON object. -/
def parseLoginBody (s : String) : Option (String × String) :=
  match dropLit "\x7b\"username\": \"".data s.data with
  | none => none
  | some r1 =>
    match parseJsonStr r1 with
    | none => none
    | some (u, r2) =>
      match dropLit ", \"password\": \"".data r2 with
      | none => none
      | some r3 =>
        match parseJsonStr r3 with
        | none => none
        | some (p, r4) =>
          if r4 == ['\x7d'] then some (⟨u⟩, ⟨p⟩) else none


/-! ## Helper lemmas -/

theorem string_beq_length_zero_iff (s : String) :
    (s.length == 0) = true ↔ s = "" := by
  obtain ⟨l⟩ := s
  simp [String.length, String.ext_iff]

theorem head?_dropWhile_false {α : Type} (p : α → Bool) :
    ∀ (l : List α) (c : α), (l.dropWhile p).head? = some c → p c = false := by
  intro l
  induction l with
  | nil => intro c h; simp [List.dropWhile] at h
  | cons a l ih =>
    intro c h
    by_cases ha : p a = true
    · rw [List.dropWhile_cons, if_pos ha] at h
      exact ih c h
    · rw [List.dropWhile_cons, if_neg ha] at h
      simp only [List.head?] at h
      cases h
      exact Bool.eq_false_iff.mpr ha

/-! ## Claim theorems -/

/-- C3: `Registry.Validate` returns an error if and only if at least one of
name, username, or password is the empty string; it never fails when all
three are non-empty. -/
theorem registry_validate_fails_iff (r : Registry) :
    Registry.Validate r ≠ none ↔
      (r.Name = "" ∨ r.Username = "" ∨ r.Password = "") := by
  obtain ⟨n, t, u, p⟩ := r
  simp only [Registry.Validate, RegistryName.Validate, RegistryUsername.Validate,
    RegistryPassword.Validate, string_beq_length_zero_iff]
  by_cases hn : n = "" <;> by_cases hu : u = "" <;> by_cases hp : p = "" <;>
    simp [hn, hu, hp]

/-- C7: `Url` of any name other than the hub sentinel (compared exactly,
case-sensitively) is `https://` followed by the name; `Url` of the sentinel
is the fixed public-hub URL. -/
theorem registryName_url_spec (n m : RegistryName) :
    (n ≠ "docker.io" → RegistryName.Url n = "https://" ++ n) ∧
    (m = "docker.io" → RegistryName.Url m = "https://hub.docker.com") := by
  constructor
  · intro h
    have hb : RegistryName.IsDockerHub n = false := by
      simp only [RegistryName.IsDockerHub, beq_eq_false_iff_ne, ne_eq]
      exact fun hh => h hh.symm
    simp [RegistryName.Url, hb]
  · intro h
    subst h
    simp [RegistryName.Url, RegistryName.IsDockerHub]

theorem registryName_url_spec_witness :
    RegistryName.Url "Docker.IO" = "https://Docker.IO" ∧
    RegistryName.Url "docker.io" = "https://hub.docker.com" :=
  ⟨(registryName_url_spec "Docker.IO" "docker.io").1 (by decide),
   (registryName_url_spec "Docker.IO" "docker.io").2 rfl⟩

/-- C2: `GetToken` rejects every response status outside 200–299 (even when
the body would parse as a token object) and for a 2xx status proceeds to
decode the body. -/
theorem getToken_status_spec (s1 s2 : Nat) (b1 b2 : Option RegistryToken) :
    (¬(200 ≤ s1 ∧ s1 ≤ 299) →
      getTokenFromResponse s1 b1 = .error (.statusNot2xx s1)) ∧
    (200 ≤ s2 ∧ s2 ≤ 299 →
      getTokenFromResponse s2 b2 =
        match b2 with
        | none => .error .decodeResponseFailed
        | some token => .ok token) := by
  constructor
  · intro h
    have hne : s1 / 100 ≠ 2 := by omega
    simp [getTokenFromResponse, hne]
  · intro h
    have heq : s2 / 100 = 2 := by omega
    cases b2 <;> simp [getTokenFromResponse, heq]

theorem getToken_status_spec_witness :
    getTokenFromResponse 500 (some "sometoken") =
      .error (.statusNot2xx 500) ∧
    getTokenFromResponse 200 (some "sometoken") = .ok "sometoken" :=
  ⟨(getToken_status_spec 500 200 (some "sometoken") (some "sometoken")).1
      (by omega),
   (getToken_status_spec 500 200 (some "sometoken") (some "sometoken")).2
      (by omega)⟩

/-- C1: `SetAuth` branches on the registry name: for the hub sentinel it uses
the `GetToken` result — on success it adds an `Authorization` header carrying
the token, on failure it returns the error — regardless of username/password
emptiness; for a non-hub registry with non-empty username and password it
sets HTTP basic auth; otherwise it leaves the request untouched and returns
ok. -/
theorem setAuth_spec (r1 r2 r3 : Registry) (req1 req2 req3 : HttpRequest)
    (t : RegistryToken) (e : TokenError)
    (tok2 tok3 : Except TokenError RegistryToken) :
    (RegistryName.IsDockerHub r1.Name = true →
      Registry.SetAuth r1 (.ok t) req1 =
        .ok (headerAdd "Authorization" ("JWT " ++ t) req1) ∧
      Registry.SetAuth r1 (.error e) req1 = .error (.getTokenFailed e)) ∧
    (RegistryName.IsDockerHub r2.Name = false →
      r2.Username ≠ "" → r2.Password ≠ "" →
      Registry.SetAuth r2 tok2 req2 =
        .ok (setBasicAuth r2.Username r2.Password req2)) ∧
    (RegistryName.IsDockerHub r3.Name = false →
      (r3.Username = "" ∨ r3.Password = "") →
      Registry.SetAuth r3 tok3 req3 = .ok req3) := by
  refine ⟨fun hhub => ?_, fun hhub hu hp => ?_, fun hhub hrest => ?_⟩
  · constructor <;> simp [Registry.SetAuth, hhub]
  · simp [Registry.SetAuth, hhub, hu, hp]
  · rcases hrest with h | h <;> simp [Registry.SetAuth, hhub, h]

theorem setAuth_spec_witness :
    Registry.SetAuth ⟨"docker.io", "", "u", ""⟩ (.ok "tok")
        ⟨"GET", "https://hub.docker.com/x", [], ""⟩ =
      .ok (headerAdd "Authorization" ("JWT " ++ "tok")
        ⟨"GET", "https://hub.docker.com/x", [], ""⟩) ∧
    Registry.SetAuth ⟨"docker.io", "", "u", ""⟩ (.error .requestFailed)
        ⟨"GET", "https://hub.docker.com/x", [], ""⟩ =
      .error (.getTokenFailed .requestFailed) ∧
    Registry.SetAuth ⟨"quay.io", "", "alice", "pw"⟩ (.ok "tok")
        ⟨"GET", "https://quay.io/x", [], ""⟩ =
      .ok (setBasicAuth "alice" "pw" ⟨"GET", "https://quay.io/x", [], ""⟩) ∧
    Registry.SetAuth ⟨"quay.io", "", "alice", ""⟩ (.ok "tok")
        ⟨"GET", "https://quay.io/x", [], ""⟩ =
      .ok ⟨"GET", "https://quay.io/x", [], ""⟩ := by
  have T := setAuth_spec ⟨"docker.io", "", "u", ""⟩ ⟨"quay.io", "", "alice", "pw"⟩
    ⟨"quay.io", "", "alice", ""⟩ ⟨"GET", "https://hub.docker.com/x", [], ""⟩
    ⟨"GET", "https://quay.io/x", [], ""⟩ ⟨"GET", "https://quay.io/x", [], ""⟩
    "tok" .requestFailed (.ok "tok") (.ok "tok")
  exact ⟨(T.1 rfl).1, (T.1 rfl).2, T.2.1 rfl (by decide) (by decide),
    T.2.2 rfl (Or.inr rfl)⟩

/-- C10: a well-formed credential store whose auth blob decodes to `alice:`
(a colon with an empty password part) is extracted successfully, leaving an
empty password, and the resulting registry then fails `Validate`. -/
theorem storeExtraction_can_fail_validate :
    Registry.CredentialsFromDockerConfig ⟨"docker.io", "", "bob", "pw"⟩
        (some [("https://index.docker.io/v1/", "YWxpY2U6")]) =
      (⟨"docker.io", "", "alice", ""⟩, none) ∧
    Registry.Validate ⟨"docker.io", "", "alice", ""⟩ =
      some "password empty" := by
  constructor <;> rfl

/-- C4: the `GetToken` request has the specified method, URL and
`Content-Type` header, but its body is built by plain string interpolation
without JSON escaping, so a password containing a double quote yields a body
that is not a valid JSON object of the form
`\x7b"username": <string>, "password": <string>\x7d` — the claim's
"valid JSON body for every username and password" fails on the code. -/
theorem getToken_request_body_not_json :
    (Registry.loginRequest ⟨"docker.io", "", "alice", "p\"w"⟩).method =
      "POST" ∧
    (Registry.loginRequest ⟨"docker.io", "", "alice", "p\"w"⟩).url =
      "https://hub.docker.com/v2/users/login/" ∧
    (Registry.loginRequest ⟨"docker.io", "", "alice", "p\"w"⟩).headers =
      [("Content-Type", "application/json")] ∧
    parseLoginBody
      (Registry.loginRequest ⟨"docker.io", "", "alice", "p\"w"⟩).body =
      none ∧
    parseLoginBody
      (Registry.loginRequest ⟨"docker.io", "", "alice", "secret"⟩).body =
      some ("alice", "secret") := by
  refine ⟨rfl, by decide, rfl, by decide, by decide⟩

theorem takeWhile_append_stop {α : Type} (q : α → Bool) (x : α) (l r : List α)
    (hl : ∀ c ∈ l, q c = true) (hx : q x = false) :
    (l ++ x :: r).takeWhile q = l := by
  induction l with
  | nil => simp [List.takeWhile_cons, hx]
  | cons a l ih =>
    have ha : q a = true := hl a (List.mem_cons_self a l)
    simp only [List.cons_append, List.takeWhile_cons, ha, if_true]
    rw [ih (fun c hc => hl c (List.mem_cons_of_mem a hc))]

theorem dropWhile_append_stop {α : Type} (q : α → Bool) (x : α) (l r : List α)
    (hl : ∀ c ∈ l, q c = true) (hx : q x = false) :
    (l ++ x :: r).dropWhile q = x :: r := by
  induction l with
  | nil => simp [List.dropWhile_cons, hx]
  | cons a l ih =>
    have ha : q a = true := hl a (List.mem_cons_self a l)
    simp only [List.cons_append, List.dropWhile_cons, ha, if_true]
    exact ih (fun c hc => hl c (List.mem_cons_of_mem a hc))

/-- C5: the decoded auth blob is split on the first `:` into exactly two
parts: with no `:` present the split step fails; otherwise the username is
the prefix before the first `:` and the password is everything after it, so
a password containing `:` is preserved intact. -/
theorem parseAuthBlob_spec (s u p : String) :
    (s.data.contains ':' = false →
      parseAuthBlob s = .error .splitAuthFailed) ∧
    (u.data.contains ':' = false →
      parseAuthBlob (u ++ ":" ++ p) = .ok (u, p)) := by
  constructor
  · intro h
    have hmem : ':' ∉ s.data := by
      rw [List.contains, List.elem_eq_mem] at h
      exact of_decide_eq_false h
    simp [parseAuthBlob, goSplitNColon2, hmem]
  · intro h
    obtain ⟨ul⟩ := u
    obtain ⟨pl⟩ := p
    have hmem : ':' ∉ ul := by
      rw [List.contains, List.elem_eq_mem] at h
      exact of_decide_eq_false h
    have hall : ∀ c ∈ ul, (c != ':') = true := fun c hc => by
      simp only [bne_iff_ne, ne_eq]
      exact fun hh => hmem (hh ▸ hc)
    have hdata : ((String.mk ul) ++ ":" ++ (String.mk pl)).data =
        ul ++ ':' :: pl := by
      rw [String.data_append, String.data_append, List.append_assoc]
      rfl
    have hcontains : (ul ++ ':' :: pl).contains ':' = true := by
      rw [List.contains, List.elem_eq_mem]
      simp
    have htake : List.takeWhile (fun c => c != ':') (ul ++ ':' :: pl) = ul :=
      takeWhile_append_stop (fun c => c != ':') ':' ul pl hall rfl
    have hdrop : List.dropWhile (fun c => c != ':') (ul ++ ':' :: pl) =
        ':' :: pl :=
      dropWhile_append_stop (fun c => c != ':') ':' ul pl hall rfl
    unfold parseAuthBlob goSplitNColon2
    rw [hdata, hcontains]
    simp [htake, hdrop]

theorem parseAuthBlob_spec_witness :
    parseAuthBlob "nocolon" = .error .splitAuthFailed ∧
    parseAuthBlob ("alice" ++ ":" ++ "s3:cr3t") = .ok ("alice", "s3:cr3t") :=
  ⟨(parseAuthBlob_spec "nocolon" "alice" "s3:cr3t").1 (by decide),
   (parseAuthBlob_spec "nocolon" "alice" "s3:cr3t").2 (by decide)⟩

theorem parseAuthBlob_error_eq (v : String) (e : CredError)
    (h : parseAuthBlob v = .error e) : e = .splitAuthFailed := by
  unfold parseAuthBlob at h
  rcases hg : goSplitNColon2 v.data with _ | ⟨a, _ | ⟨b, _ | ⟨c, l⟩⟩⟩ <;>
    rw [hg] at h <;> simp_all

/-- C6: credential extraction looks up the domain key `nameToDomain` (hub
sentinel mapped to the legacy index URL, any other name mapped to itself) in
the decoded auths map and produces the not-found error, leaving the registry
unchanged, exactly when that key is absent. -/
theorem credentials_domain_spec (r : Registry) (m : List (String × String))
    (n1 n2 : RegistryName) :
    ((Registry.CredentialsFromDockerConfig r (some m)).2 =
        some (.domainNotFound r.Name) ↔
      m.lookup (nameToDomain r.Name) = none) ∧
    (m.lookup (nameToDomain r.Name) = none →
      (Registry.CredentialsFromDockerConfig r (some m)).1 = r) ∧
    (n1 = "docker.io" → nameToDomain n1 = "https://index.docker.io/v1/") ∧
    (n2 ≠ "docker.io" → nameToDomain n2 = n2) := by
  refine ⟨?_, ?_, ?_, ?_⟩
  · cases hl : m.lookup (nameToDomain r.Name) with
    | none => simp [Registry.CredentialsFromDockerConfig, hl]
    | some a =>
      cases hb : b64Decode a with
      | none => simp [Registry.CredentialsFromDockerConfig, hl, hb]
      | some v =>
        cases hp : parseAuthBlob v with
        | error e =>
          have he := parseAuthBlob_error_eq v e hp
          subst he
          simp [Registry.CredentialsFromDockerConfig, hl, hb, hp]
        | ok up =>
          obtain ⟨uu, pp⟩ := up
          simp [Registry.CredentialsFromDockerConfig, hl, hb, hp]
  · intro hl
    simp [Registry.CredentialsFromDockerConfig, hl]
  · intro h
    subst h
    simp [nameToDomain, RegistryName.IsDockerHub]
  · intro h
    have hb : RegistryName.IsDockerHub n2 = false := by
      simp only [RegistryName.IsDockerHub, beq_eq_false_iff_ne, ne_eq]
      exact fun hh => h hh.symm
    simp [nameToDomain, hb]

theorem credentials_domain_spec_witness :
    (Registry.CredentialsFromDockerConfig ⟨"docker.io", "tok", "u", "p"⟩
        (some [("other.example", "eDp5")])).2 =
      some (.domainNotFound "docker.io") ∧
    (Registry.CredentialsFromDockerConfig ⟨"docker.io", "tok", "u", "p"⟩
        (some [("other.example", "eDp5")])).1 =
      ⟨"docker.io", "tok", "u", "p"⟩ ∧
    nameToDomain "docker.io" = "https://index.docker.io/v1/" ∧
    nameToDomain "quay.io" = "quay.io" := by
  have T := credentials_domain_spec ⟨"docker.io", "tok", "u", "p"⟩
    [("other.example", "eDp5")] "docker.io" "quay.io"
  exact ⟨T.1.mpr (by decide), T.2.1 (by decide), T.2.2.1 rfl,
    T.2.2.2 (by decide)⟩

/-- C9: credential extraction touches only the username and password fields —
on success name and token are unchanged, and on any error (malformed JSON,
missing domain key, invalid base64, missing colon) the whole registry is
unchanged. -/
theorem credentials_frame_spec (r1 r2 : Registry)
    (i1 i2 : Option (List (String × String))) :
    ((Registry.CredentialsFromDockerConfig r1 i1).2 = none →
      (Registry.CredentialsFromDockerConfig r1 i1).1.Name = r1.Name ∧
      (Registry.CredentialsFromDockerConfig r1 i1).1.Token = r1.Token) ∧
    ((Registry.CredentialsFromDockerConfig r2 i2).2 ≠ none →
      (Registry.CredentialsFromDockerConfig r2 i2).1 = r2) := by
  constructor
  · intro h
    cases i1 with
    | none => simp [Registry.CredentialsFromDockerConfig] at h
    | some auths =>
      cases hl : auths.lookup (nameToDomain r1.Name) with
      | none => simp [Registry.CredentialsFromDockerConfig, hl] at h
      | some a =>
        cases hb : b64Decode a with
        | none => simp [Registry.CredentialsFromDockerConfig, hl, hb] at h
        | some v =>
          cases hp : parseAuthBlob v with
          | error e =>
            simp [Registry.CredentialsFromDockerConfig, hl, hb, hp] at h
          | ok up =>
            obtain ⟨uu, pp⟩ := up
            simp [Registry.CredentialsFromDockerConfig, hl, hb, hp]
  · intro h
    cases i2 with
    | none => simp [Registry.CredentialsFromDockerConfig]
    | some auths =>
      cases hl : auths.lookup (nameToDomain r2.Name) with
      | none => simp [Registry.CredentialsFromDockerConfig, hl]
      | some a =>
        cases hb : b64Decode a with
        | none => simp [Registry.CredentialsFromDockerConfig, hl, hb]
        | some v =>
          cases hp : parseAuthBlob v with
          | error e =>
            simp [Registry.CredentialsFromDockerConfig, hl, hb, hp]
          | ok up =>
            obtain ⟨uu, pp⟩ := up
            simp [Registry.CredentialsFromDockerConfig, hl, hb, hp] at h

theorem credentials_frame_spec_witness :
    (Registry.CredentialsFromDockerConfig ⟨"docker.io", "tok", "bob", "pw"⟩
        (some [("https://index.docker.io/v1/", "YWxpY2U6c2VjcmV0")])).1.Name =
      "docker.io" ∧
    (Registry.CredentialsFromDockerConfig ⟨"docker.io", "tok", "bob", "pw"⟩
        (some [("https://index.docker.io/v1/", "YWxpY2U6c2VjcmV0")])).1.Token =
      "tok" ∧
    (Registry.CredentialsFromDockerConfig ⟨"quay.io", "t", "u", "p"⟩
        none).1 = ⟨"quay.io", "t", "u", "p"⟩ := by
  have T := credentials_frame_spec ⟨"docker.io", "tok", "bob", "pw"⟩
    ⟨"quay.io", "t", "u", "p"⟩
    (some [("https://index.docker.io/v1/", "YWxpY2U6c2VjcmV0")]) none
  exact ⟨(T.1 (by decide)).1, (T.1 (by decide)).2, T.2 (by decide)⟩

/-- C8: on a successful read, `RegistryPasswordFromFile` returns the file
content with leading and trailing whitespace removed and interior characters
preserved (the content decomposes as whitespace ++ result ++ whitespace and
the result neither starts nor ends with whitespace); `"secret\n"` yields
`"secret"`; a failed read yields the error together with an empty
password. -/
theorem passwordFromFile_spec (content e : String) :
    (∃ lead trail : List Char,
      content.data =
        lead ++ (RegistryPasswordFromFile (.ok content)).1.data ++ trail ∧
      (∀ c ∈ lead, goIsSpace c = true) ∧
      (∀ c ∈ trail, goIsSpace c = true)) ∧
    (∀ c, (RegistryPasswordFromFile (.ok content)).1.data.head? = some c →
      goIsSpace c = false) ∧
    (∀ c, (RegistryPasswordFromFile (.ok content)).1.data.getLast? = some c →
      goIsSpace c = false) ∧
    (RegistryPasswordFromFile (.ok content)).2 = none ∧
    RegistryPasswordFromFile (.ok "secret\n") = ("secret", none) ∧
    RegistryPasswordFromFile (.error e) = ("", some e) := by
  have hres : (RegistryPasswordFromFile (.ok content)).1.data =
      ((content.data.dropWhile goIsSpace).reverse.dropWhile goIsSpace).reverse :=
    rfl
  have hd : content.data.dropWhile goIsSpace =
      ((content.data.dropWhile goIsSpace).reverse.dropWhile goIsSpace).reverse ++
      ((content.data.dropWhile goIsSpace).reverse.takeWhile goIsSpace).reverse := by
    conv_lhs =>
      rw [← List.reverse_reverse (content.data.dropWhile goIsSpace),
        ← List.takeWhile_append_dropWhile goIsSpace
          (content.data.dropWhile goIsSpace).reverse]
    rw [List.reverse_append]
  refine ⟨⟨content.data.takeWhile goIsSpace,
    ((content.data.dropWhile goIsSpace).reverse.takeWhile goIsSpace).reverse,
    ?_, ?_, ?_⟩, ?_, ?_, rfl, rfl, rfl⟩
  · rw [hres, List.append_assoc, ← hd,
      List.takeWhile_append_dropWhile goIsSpace content.data]
  · exact fun c hc => List.mem_takeWhile_imp hc
  · intro c hc
    exact List.mem_takeWhile_imp (List.mem_reverse.mp hc)
  · intro c h
    rw [hres] at h
    have h1 := List.mem_head?_append_of_mem_head?
      (t := ((content.data.dropWhile goIsSpace).reverse.takeWhile
        goIsSpace).reverse) (Option.mem_def.mpr h)
    rw [← hd] at h1
    exact head?_dropWhile_false goIsSpace content.data c (Option.mem_def.mp h1)
  · intro c h
    rw [hres, List.getLast?_reverse] at h
    exact head?_dropWhile_false goIsSpace
      (content.data.dropWhile goIsSpace).reverse c h

theorem passwordFromFile_spec_witness :
    RegistryPasswordFromFile (.ok "secret\n") = ("secret", none) ∧
    RegistryPasswordFromFile (.error "ioerr") = ("", some "ioerr") ∧
    goIsSpace 's' = false :=
  ⟨(passwordFromFile_spec "  hi " "ioerr").2.2.2.2.1,
   (passwordFromFile_spec "  hi " "ioerr").2.2.2.2.2,
   (passwordFromFile_spec "secret\n" "ioerr").2.1 's' rfl⟩

theorem registry_validate_fails_iff_witness :
    Registry.Validate ⟨"host.example", "", "", "pw"⟩ ≠ none ∧
    ¬(Registry.Validate ⟨"host.example", "", "alice", "pw"⟩ ≠ none) :=
  ⟨(registry_validate_fails_iff ⟨"host.example", "", "", "pw"⟩).mpr
      (Or.inr (Or.inl rfl)),
   fun h => by
    rcases (registry_validate_fails_iff
      ⟨"host.example", "", "alice", "pw"⟩).mp h with h1 | h1 | h1 <;>
      simp at h1⟩
